import Mathlib

/-!
Verification development for the undercoverAI server
(`server/src/gameManager.ts`, `server/src/roomManager.ts`).

JavaScript `Map` objects are modelled as association lists that keep
insertion order; `Map.get`, `Map.set` and `Map.has` become `mapGet`,
`mapSet` and `(mapGet _ _).isSome`.  `Math.random`-driven code
(`shuffleArray`, the AI display-name draw) is parametrised by explicit
random-choice oracles, with the in-range property of
`Math.floor(Math.random() * (i + 1))` modelled by a modulus.
-/

namespace Undercover

/-- `Map.get`: value of the first (and, for JS maps, only) entry with the key. -/
def mapGet {α : Type} : List (String × α) → String → Option α
  | [], _ => none
  | (k, v) :: rest, key => if k = key then some v else mapGet rest key

/-- `Map.set`: update the entry in place if the key is present (keeping its
position, as JS maps do), otherwise append a new entry. -/
def mapSet {α : Type} : List (String × α) → String → α → List (String × α)
  | [], key, v => [(key, v)]
  | (k, w) :: rest, key, v =>
    if k = key then (key, v) :: rest else (k, w) :: mapSet rest key v

/-- The keys of an association list, in order. -/
def mapKeys {α : Type} (m : List (String × α)) : List String := m.map Prod.fst

theorem mapGet_mapSet_self {α : Type} (m : List (String × α)) (k : String) (v : α) :
    mapGet (mapSet m k v) k = some v := by
  induction m with
  | nil => simp [mapGet, mapSet]
  | cons hd tl ih =>
    obtain ⟨k', w⟩ := hd
    by_cases h : k' = k
    · simp [mapGet, mapSet, h]
    · simp [mapGet, mapSet, h, ih]

theorem mapGet_mapSet_ne {α : Type} (m : List (String × α)) (k k' : String) (v : α)
    (h : k' ≠ k) : mapGet (mapSet m k v) k' = mapGet m k' := by
  induction m with
  | nil => simp [mapGet, mapSet, Ne.symm h]
  | cons hd tl ih =>
    obtain ⟨k'', w⟩ := hd
    by_cases h2 : k'' = k
    · subst h2
      simp [mapGet, mapSet, Ne.symm h]
    · by_cases h3 : k'' = k'
      · simp [mapGet, mapSet, h2, h3, h]
      · simp [mapGet, mapSet, h2, h3, ih]

theorem mem_of_mapGet_eq_some {α : Type} {m : List (String × α)} {k : String} {v : α}
    (h : mapGet m k = some v) : (k, v) ∈ m := by
  induction m with
  | nil => simp [mapGet] at h
  | cons hd tl ih =>
    obtain ⟨k', w⟩ := hd
    by_cases h2 : k' = k
    · subst h2
      simp [mapGet] at h
      simp [h]
    · simp [mapGet, h2] at h
      exact List.mem_cons_of_mem _ (ih h)

theorem mapGet_eq_some_of_mem_nodup {α : Type} {m : List (String × α)} {k : String} {v : α}
    (hnd : (mapKeys m).Nodup) (hmem : (k, v) ∈ m) : mapGet m k = some v := by
  induction m with
  | nil => simp at hmem
  | cons hd tl ih =>
    obtain ⟨k', w⟩ := hd
    simp only [mapKeys, List.map_cons, List.nodup_cons] at hnd
    rcases List.mem_cons.mp hmem with heq | htl
    · simp only [Prod.mk.injEq] at heq
      simp [mapGet, heq.1.symm, heq.2]
    · by_cases h2 : k' = k
      · exfalso
        apply hnd.1
        subst h2
        exact List.mem_map.mpr ⟨(k', v), htl, rfl⟩
      · simpa [mapGet, h2] using ih hnd.2 htl

theorem not_mem_mapKeys_of_mapGet_none {α : Type} {m : List (String × α)} {k : String}
    (h : mapGet m k = none) : k ∉ mapKeys m := by
  induction m with
  | nil => simp [mapKeys]
  | cons hd tl ih =>
    obtain ⟨k', w⟩ := hd
    by_cases h2 : k' = k
    · simp [mapGet, h2] at h
    · simp only [mapGet, h2, if_false] at h
      simp only [mapKeys, List.map_cons]
      intro hmem
      rcases List.mem_cons.mp hmem with heq | htl
      · exact h2 heq.symm
      · exact ih h htl

theorem mapKeys_mapSet_of_isSome {α : Type} (m : List (String × α)) (k : String) (v : α)
    (h : (mapGet m k).isSome) : mapKeys (mapSet m k v) = mapKeys m := by
  induction m with
  | nil => simp [mapGet] at h
  | cons hd tl ih =>
    obtain ⟨k', w⟩ := hd
    by_cases h2 : k' = k
    · simp [mapKeys, mapSet, h2]
    · simp only [mapGet, h2, if_false] at h
      simp only [mapKeys, mapSet, h2, if_false, List.map_cons, List.cons.injEq, true_and] at ih ⊢
      exact ih h

theorem mapKeys_mapSet_of_none {α : Type} (m : List (String × α)) (k : String) (v : α)
    (h : mapGet m k = none) : mapKeys (mapSet m k v) = mapKeys m ++ [k] := by
  induction m with
  | nil => simp [mapKeys, mapSet]
  | cons hd tl ih =>
    obtain ⟨k', w⟩ := hd
    by_cases h2 : k' = k
    · simp [mapGet, h2] at h
    · simp only [mapGet, h2, if_false] at h
      simp only [mapKeys, mapSet, h2, if_false, List.map_cons, List.cons_append,
        List.cons.injEq, true_and] at ih ⊢
      exact ih h

theorem mapKeys_mapSet_nodup {α : Type} (m : List (String × α)) (k : String) (v : α)
    (hnd : (mapKeys m).Nodup) : (mapKeys (mapSet m k v)).Nodup := by
  cases h : mapGet m k with
  | none =>
    rw [mapKeys_mapSet_of_none m k v h]
    have hk : k ∉ mapKeys m := not_mem_mapKeys_of_mapGet_none h
    simp [List.nodup_append, hnd, hk]
  | some w =>
    rw [mapKeys_mapSet_of_isSome m k v (by simp [h])]
    exact hnd

theorem mem_mapKeys_mapSet {α : Type} (m : List (String × α)) (k key : String) (v : α)
    (h : key ∈ mapKeys (mapSet m k v)) : key ∈ mapKeys m ∨ key = k := by
  cases hg : mapGet m k with
  | none => rw [mapKeys_mapSet_of_none m k v hg] at h; simpa using h
  | some w =>
    rw [mapKeys_mapSet_of_isSome m k v (by simp [hg])] at h
    exact Or.inl h

/-- `Role` from `gameManager.ts`. -/
inductive Role where
  | civilian
  | undercover
deriving DecidableEq

/-- `GamePhase` from `gameManager.ts` (the enum has exactly these six members). -/
inductive GamePhase where
  | lobby
  | description
  | voting
  | results
  | aiGuess
  | finalResults
deriving DecidableEq

/-- `GamePlayer` from `gameManager.ts`. -/
structure GamePlayer where
  id : String
  name : String
  isHuman : Bool
  isAI : Bool
  role : Role
  word : String
  description : String
  voteTarget : String
  hasSubmittedDescription : Bool
  hasVoted : Bool
deriving DecidableEq

/-- `GameState` from `gameManager.ts`.  The `aiPersona` field (free-text
prompt configuration for the language model, never read by the game logic)
is not modelled. -/
structure GameState where
  roomCode : String
  phase : GamePhase
  players : List (String × GamePlayer)
  aiPlayerId : String
  civilianWord : String
  undercoverWord : String
  eliminatedPlayerId : Option String
  civiliansWon : Option Bool
  aiGuesses : List (String × String)
  aiGuessWinners : List String
deriving DecidableEq

/-- Entry of `GameResults.eliminatedPlayer` / `aiPlayer`. -/
structure ElimPlayer where
  id : String
  name : String
  role : Role
deriving DecidableEq

/-- One entry of `GameResults.voteCounts`. -/
structure VoteCountEntry where
  playerId : String
  playerName : String
  votes : Nat
deriving DecidableEq

/-- One entry of `GameResults.allPlayers`. -/
structure ResultPlayer where
  id : String
  name : String
  role : Role
  word : String
  voteTarget : String
deriving DecidableEq

/-- `GameResults` from `gameManager.ts`.  `undercoverPlayer` and `aiPlayer`
are obtained with non-null assertions in the source; they are modelled as
options. -/
structure GameResults where
  eliminatedPlayer : Option ElimPlayer
  civiliansWon : Bool
  undercoverPlayer : Option (String × String)
  aiPlayer : Option ElimPlayer
  voteCounts : List VoteCountEntry
  allPlayers : List ResultPlayer
deriving DecidableEq

/-- One entry of `PlayerGameView.players`. -/
structure ViewPlayer where
  id : String
  name : String
  isAI : Bool
  description : String
  hasSubmittedDescription : Bool
  hasVoted : Bool
  voteTarget : Option String
  role : Option Role
  word : Option String
deriving DecidableEq

/-- `PlayerGameView` from `gameManager.ts`. -/
structure PlayerGameView where
  roomCode : String
  phase : GamePhase
  myPlayerId : String
  myRole : Option Role
  myWord : String
  players : List ViewPlayer
deriving DecidableEq

/-- The `GameManager.games` map: room code to game state. -/
def GMState : Type := List (String × GameState)

/-- JS `toUpperCase` / `toLowerCase` (ASCII case mapping, character-wise). -/
def jsToUpper (s : String) : String := String.mk (s.data.map Char.toUpper)

def jsToLower (s : String) : String := String.mk (s.data.map Char.toLower)

def CIVILIAN_WORD : String := "Coffee"
def UNDERCOVER_WORD : String := "Tea"
def AI_PLAYER_ID : String := "AI_PLAYER"

/-- `[result[i], result[j]] = [result[j], result[i]]` — exchange two
positions of a list (identity when either index is out of range). -/
def swapIdx {α : Type} (l : List α) (i j : Nat) : List α :=
  match l.get? i, l.get? j with
  | some a, some b => (l.set i b).set j a
  | _, _ => l

/-- The Fisher–Yates loop of `shuffleArray`, with the draw
`Math.floor(Math.random() * (i + 1))` supplied by the oracle `rnd`
(reduced modulo `i + 1` to model its range). -/
def fisherYates {α : Type} (rnd : Nat → Nat) (l : List α) : Nat → List α
  | 0 => l
  | i + 1 => fisherYates rnd (swapIdx l (i + 1) (rnd (i + 1) % (i + 2))) i

/-- `shuffleArray` from `gameManager.ts`: Fisher–Yates over a copy,
from index `length - 1` down to `1`. -/
def shuffleArray {α : Type} (rnd : Nat → Nat) (l : List α) : List α :=
  fisherYates rnd l (l.length - 1)

theorem cons_set_perm {α : Type} :
    ∀ (t : List α) (n : Nat) (a b : α), t.get? n = some b →
      (b :: t.set n a).Perm (a :: t) := by
  intro t
  induction t with
  | nil => intro n a b h; simp at h
  | cons c s ih =>
    intro n a b h
    cases n with
    | zero =>
      have hb : b = c := by simpa using h.symm
      subst hb
      simpa [List.set] using List.Perm.swap a b s
    | succ m =>
      simp only [List.get?_cons_succ] at h
      have hih := ih m a b h
      have h1 : (c :: s).set (m + 1) a = c :: s.set m a := by simp [List.set]
      rw [h1]
      exact ((List.Perm.swap c b _).trans (List.Perm.cons c hih)).trans (List.Perm.swap a c s)

theorem set_set_perm {α : Type} :
    ∀ (l : List α) (i j : Nat) (a b : α), l.get? i = some a → l.get? j = some b →
      ((l.set i b).set j a).Perm l := by
  intro l
  induction l with
  | nil => intro i j a b hi hj; simp at hi
  | cons x t ih =>
    intro i j a b hi hj
    cases i with
    | zero =>
      have ha : a = x := by simpa using hi.symm
      subst ha
      cases j with
      | zero =>
        have hb : b = a := by simpa using hj.symm
        subst hb
        simp [List.set]
      | succ m =>
        simp only [List.get?_cons_succ] at hj
        simpa [List.set] using cons_set_perm t m a b hj
    | succ n =>
      simp only [List.get?_cons_succ] at hi
      cases j with
      | zero =>
        have hb : b = x := by simpa using hj.symm
        subst hb
        have := cons_set_perm t n b a hi
        simpa [List.set] using this
      | succ m =>
        simp only [List.get?_cons_succ] at hj
        simpa [List.set] using List.Perm.cons x (ih n m a b hi hj)

theorem swapIdx_perm {α : Type} (l : List α) (i j : Nat) : (swapIdx l i j).Perm l := by
  unfold swapIdx
  cases hi : l.get? i with
  | none => exact List.Perm.refl l
  | some a =>
    cases hj : l.get? j with
    | none => exact List.Perm.refl l
    | some b => exact set_set_perm l i j a b hi hj

theorem fisherYates_perm {α : Type} (rnd : Nat → Nat) :
    ∀ (n : Nat) (l : List α), (fisherYates rnd l n).Perm l := by
  intro n
  induction n with
  | zero => intro l; exact List.Perm.refl l
  | succ m ih =>
    intro l
    exact (ih _).trans (swapIdx_perm l (m + 1) (rnd (m + 1) % (m + 2)))

theorem shuffleArray_perm {α : Type} (rnd : Nat → Nat) (l : List α) :
    (shuffleArray rnd l).Perm l :=
  fisherYates_perm rnd (l.length - 1) l

theorem shuffleArray_length {α : Type} (rnd : Nat → Nat) (l : List α) :
    (shuffleArray rnd l).length = l.length :=
  (shuffleArray_perm rnd l).length_eq

/-- `RANDOM_NAMES` from `gameManager.ts`. -/
def randomNames : List String :=
  ["Alex", "Sam", "Jordan", "Taylor", "Casey", "Morgan", "Riley", "Quinn",
   "Avery", "Charlie", "Jamie", "Drew", "Blake", "Skyler", "Reese", "Parker",
   "Hayden", "Dakota", "Finley", "Sage", "River", "Phoenix", "Rowan", "Emery",
   "Logan", "Cameron", "Dylan", "Peyton", "Kendall", "Jessie", "Kai", "Ellis",
   "Max", "Leo", "Mia", "Zoe", "Luna", "Chloe", "Emma", "Ava", "Noah", "Liam",
   "Ethan", "Mason", "Lucas", "Oliver", "Aiden", "Elijah", "James", "Ben"]

/-- `getRandomNames`: shuffle the pool, take the first `count`. -/
def getRandomNames (rnd : Nat → Nat) (count : Nat) : List String :=
  (shuffleArray rnd randomNames).take count

/-- The collision-retry loop of the AI display-name draw in `startGame`
(`while (humanNameSet.has(aiName.toLowerCase()) && attempts < 50)`),
with the remaining attempts as fuel and `nameRnd` supplying the oracle of
each `getRandomNames` call. -/
def pickAiNameGo (nameRnd : Nat → Nat → Nat) (humanNameSet : List String) :
    Nat → Nat → String → String
  | 0, _, aiName => aiName
  | fuel + 1, callIdx, aiName =>
    if humanNameSet.contains (jsToLower aiName) then
      pickAiNameGo nameRnd humanNameSet fuel (callIdx + 1)
        ((getRandomNames (nameRnd callIdx) 1).headD aiName)
    else aiName

/-- The AI display-name draw in `startGame`: a first `getRandomNames(1)[0]`
followed by at most 50 collision retries. -/
def pickAiName (nameRnd : Nat → Nat → Nat) (humanNameSet : List String) : String :=
  pickAiNameGo nameRnd humanNameSet 50 1 ((getRandomNames (nameRnd 0) 1).headD "")

/-- A human `GamePlayer` record as built in `startGame`. -/
def mkHumanPlayer (id name : String) (role : Role) : GamePlayer :=
  { id := id, name := name, isHuman := true, isAI := false, role := role,
    word := if role = Role.civilian then CIVILIAN_WORD else UNDERCOVER_WORD,
    description := "", voteTarget := "", hasSubmittedDescription := false,
    hasVoted := false }

/-- The `humanPlayers.forEach((hp, index) => players.set(hp.id, ...))` loop
of `startGame` (`index` is always within `roles` for the checked length). -/
def addHumans (roles : List Role) :
    List (String × GamePlayer) → Nat → List (String × String) → List (String × GamePlayer)
  | players, _, [] => players
  | players, index, hp :: rest =>
    addHumans roles
      (mapSet players hp.1 (mkHumanPlayer hp.1 hp.2 ((roles.get? index).getD Role.civilian)))
      (index + 1) rest

/-- `GameManager.startGame`.  `roleRnd` drives the role shuffle and
`nameRnd` the AI display-name draw. -/
def startGame (roleRnd : Nat → Nat) (nameRnd : Nat → Nat → Nat) (gm : GMState)
    (roomCode : String) (humanPlayers : List (String × String)) :
    Option GameState × GMState :=
  if humanPlayers.length ≠ 3 then (none, gm)
  else
    let roles := shuffleArray roleRnd
      [Role.civilian, Role.civilian, Role.civilian, Role.undercover]
    let humanNameSet := humanPlayers.map (fun hp => jsToLower hp.2)
    let aiName := pickAiName nameRnd humanNameSet
    let players0 := addHumans roles [] 0 humanPlayers
    let aiRole := (roles.get? 3).getD Role.civilian
    let players := mapSet players0 AI_PLAYER_ID
      { id := AI_PLAYER_ID, name := aiName, isHuman := false, isAI := true, role := aiRole,
        word := if aiRole = Role.civilian then CIVILIAN_WORD else UNDERCOVER_WORD,
        description := "", voteTarget := "", hasSubmittedDescription := false,
        hasVoted := false }
    let gameState : GameState :=
      { roomCode := roomCode, phase := GamePhase.description, players := players,
        aiPlayerId := AI_PLAYER_ID, civilianWord := CIVILIAN_WORD,
        undercoverWord := UNDERCOVER_WORD, eliminatedPlayerId := none,
        civiliansWon := none, aiGuesses := [], aiGuessWinners := [] }
    (some gameState, mapSet gm roomCode gameState)

/-- `GameManager.getGame`. -/
def getGame (gm : GMState) (roomCode : String) : Option GameState :=
  mapGet gm roomCode

/-- `GameManager.getPlayerView`: the seat-scoped view.  Note the source sets
`isAI: false` unconditionally ("Hide who is AI from everyone"). -/
def getPlayerView (gm : GMState) (roomCode playerId : String) (showResults : Bool) :
    Option PlayerGameView :=
  match mapGet gm roomCode with
  | none => none
  | some game =>
    match mapGet game.players playerId with
    | none => none
    | some myPlayer =>
      let viewPlayers := game.players.map (fun p =>
        ({ id := p.2.id, name := p.2.name, isAI := false,
           description := p.2.description,
           hasSubmittedDescription := p.2.hasSubmittedDescription,
           hasVoted := p.2.hasVoted,
           voteTarget := if showResults then some p.2.voteTarget else none,
           role := if showResults then some p.2.role else none,
           word := if showResults then some p.2.word else none } : ViewPlayer))
      some { roomCode := game.roomCode, phase := game.phase, myPlayerId := playerId,
             myRole := if showResults then some myPlayer.role else none,
             myWord := myPlayer.word, players := viewPlayers }

/-- `GameManager.submitDescription`: any member of a game in the
description phase is accepted. -/
def submitDescription (gm : GMState) (roomCode playerId text : String) : Bool × GMState :=
  match mapGet gm roomCode with
  | none => (false, gm)
  | some game =>
    if game.phase ≠ GamePhase.description then (false, gm)
    else
      match mapGet game.players playerId with
      | none => (false, gm)
      | some player =>
        let player' := { player with description := text, hasSubmittedDescription := true }
        (true, mapSet gm roomCode { game with players := mapSet game.players playerId player' })

/-- `GameManager.submitVote`: any member of a game in the voting phase is
accepted, with any target string. -/
def submitVote (gm : GMState) (roomCode playerId voteTarget : String) : Bool × GMState :=
  match mapGet gm roomCode with
  | none => (false, gm)
  | some game =>
    if game.phase ≠ GamePhase.voting then (false, gm)
    else
      match mapGet game.players playerId with
      | none => (false, gm)
      | some player =>
        let player' := { player with voteTarget := voteTarget, hasVoted := true }
        (true, mapSet gm roomCode { game with players := mapSet game.players playerId player' })

/-- `GameManager.advancePhase`: the `switch` has no discussion case and no
default; lobby and final-results states are left unchanged. -/
def advancePhase (gm : GMState) (roomCode : String) : Option GamePhase × GMState :=
  match mapGet gm roomCode with
  | none => (none, gm)
  | some game =>
    let newPhase :=
      match game.phase with
      | GamePhase.description => GamePhase.voting
      | GamePhase.voting => GamePhase.results
      | GamePhase.results => GamePhase.aiGuess
      | GamePhase.aiGuess => GamePhase.finalResults
      | other => other
    (some newPhase, mapSet gm roomCode { game with phase := newPhase })

/-- `GameManager.setPhase`. -/
def setPhase (gm : GMState) (roomCode : String) (phase : GamePhase) : GMState :=
  match mapGet gm roomCode with
  | none => gm
  | some game => mapSet gm roomCode { game with phase := phase }

/-- One step of the vote-counting loop of `calculateVotingResults`
(`if (player.voteTarget) voteCounts.set(t, (voteCounts.get(t) || 0) + 1)`). -/
def countStep (acc : List (String × Nat)) (p : String × GamePlayer) : List (String × Nat) :=
  if p.2.voteTarget = "" then acc
  else mapSet acc p.2.voteTarget ((mapGet acc p.2.voteTarget).getD 0 + 1)

/-- The vote-counting loop of `calculateVotingResults`. -/
def countVotes (players : List (String × GamePlayer)) : List (String × Nat) :=
  players.foldl countStep []

/-- One step of the max scan of `calculateVotingResults`
(`if (votes > maxVotes)`). -/
def maxStep (acc : Nat × Option String) (kv : String × Nat) : Nat × Option String :=
  if acc.1 < kv.2 then (kv.2, some kv.1) else acc

/-- The max scan of `calculateVotingResults`. -/
def findMaxVote (voteCounts : List (String × Nat)) : Nat × Option String :=
  voteCounts.foldl maxStep (0, (none : Option String))

/-- Number of votes recorded for `target` in a game's vote-count map. -/
def voteCountOf (game : GameState) (target : String) : Nat :=
  (mapGet (countVotes game.players) target).getD 0

/-- The stable insertion sort modelling `voteCounts.sort((a, b) => b.votes - a.votes)`. -/
def insertVoteCount (e : VoteCountEntry) : List VoteCountEntry → List VoteCountEntry
  | [] => [e]
  | x :: rest => if x.votes < e.votes then e :: x :: rest else x :: insertVoteCount e rest

def sortVoteCounts : List VoteCountEntry → List VoteCountEntry
  | [] => []
  | x :: rest => insertVoteCount x (sortVoteCounts rest)

/-- `GameManager.calculateVotingResults`. -/
def calculateVotingResults (gm : GMState) (roomCode : String) :
    Option GameResults × GMState :=
  match mapGet gm roomCode with
  | none => (none, gm)
  | some game =>
    let voteCounts := countVotes game.players
    let scan := findMaxVote voteCounts
    let eliminatedId := scan.2
    let eliminatedPlayer := eliminatedId.bind (fun i => mapGet game.players i)
    let undercoverPlayer :=
      (game.players.find? (fun p => decide (p.2.role = Role.undercover))).map
        (fun p => (p.2.id, p.2.name))
    let aiPlayer := (mapGet game.players AI_PLAYER_ID).map
      (fun p => ({ id := p.id, name := p.name, role := p.role } : ElimPlayer))
    let civiliansWon :=
      match eliminatedPlayer with
      | some p => decide (p.role = Role.undercover)
      | none => false
    let game' := { game with eliminatedPlayerId := eliminatedId,
                             civiliansWon := some civiliansWon }
    let voteCountsArray := sortVoteCounts (voteCounts.map (fun kv =>
      { playerId := kv.1,
        playerName := ((mapGet game.players kv.1).map (fun p => p.name)).getD "Unknown",
        votes := kv.2 }))
    let allPlayers := game.players.map (fun p =>
      ({ id := p.2.id, name := p.2.name, role := p.2.role, word := p.2.word,
         voteTarget := p.2.voteTarget } : ResultPlayer))
    (some { eliminatedPlayer := eliminatedPlayer.map (fun p =>
              { id := p.id, name := p.name, role := p.role }),
            civiliansWon := civiliansWon,
            undercoverPlayer := undercoverPlayer,
            aiPlayer := aiPlayer,
            voteCounts := voteCountsArray,
            allPlayers := allPlayers },
     mapSet gm roomCode game')

/-- `GameManager.submitAIGuess`: the only checks are that the game exists
and the phase is the AI-guess phase; caller and guessed id are recorded
unconditionally (`game.aiGuesses.set(playerId, guessedAIId)`). -/
def submitAIGuess (gm : GMState) (roomCode playerId guessedAIId : String) : Bool × GMState :=
  match mapGet gm roomCode with
  | none => (false, gm)
  | some game =>
    if game.phase ≠ GamePhase.aiGuess then (false, gm)
    else (true, mapSet gm roomCode
      { game with aiGuesses := mapSet game.aiGuesses playerId guessedAIId })

/-- JS truthiness of the optional `game.civiliansWon` field. -/
def truthy : Option Bool → Bool
  | some true => true
  | _ => false

/-- `GameManager.allAIGuessesSubmitted`: only the losing humans
(undercover humans if civilians won, civilian humans otherwise) are
required to have an entry in `aiGuesses`. -/
def allAIGuessesSubmitted (gm : GMState) (roomCode : String) : Bool :=
  match mapGet gm roomCode with
  | none => false
  | some game =>
    let losingHumans := game.players.filter (fun p =>
      p.2.isHuman &&
        (if truthy game.civiliansWon then decide (p.2.role = Role.undercover)
         else decide (p.2.role = Role.civilian)))
    losingHumans.all (fun p => (mapGet game.aiGuesses p.1).isSome)

/-- One entry of the final results' `allGuesses`. -/
structure GuessEntry where
  playerId : String
  playerName : String
  guessedId : String
  correct : Bool
deriving DecidableEq

/-- Return value of `calculateFinalResults`. -/
structure FinalResults where
  aiGuessWinners : List (String × String)
  aiPlayer : Option ElimPlayer
  allGuesses : List GuessEntry
deriving DecidableEq

/-- `GameManager.calculateFinalResults`. -/
def calculateFinalResults (gm : GMState) (roomCode : String) :
    Option FinalResults × GMState :=
  match mapGet gm roomCode with
  | none => (none, gm)
  | some game =>
    let aiPlayer := (mapGet game.players AI_PLAYER_ID).map
      (fun p => ({ id := p.id, name := p.name, role := p.role } : ElimPlayer))
    let winners := game.aiGuesses.filterMap (fun g =>
      if g.2 = AI_PLAYER_ID then
        (mapGet game.players g.1).map (fun p => (p.id, p.name))
      else none)
    let allGuesses := game.aiGuesses.map (fun g =>
      ({ playerId := g.1,
         playerName := ((mapGet game.players g.1).map (fun p => p.name)).getD "Unknown",
         guessedId := g.2,
         correct := decide (g.2 = AI_PLAYER_ID) } : GuessEntry))
    let game' := { game with aiGuessWinners := winners.map Prod.fst }
    (some { aiGuessWinners := winners, aiPlayer := aiPlayer, allGuesses := allGuesses },
     mapSet gm roomCode game')

/-- `Player` from `roomManager.ts` (a lobby member, pre-game). -/
structure Player where
  id : String
  name : String
  isReady : Bool
deriving DecidableEq

/-- `Room` from `roomManager.ts` (`createdAt`, a wall-clock timestamp used
nowhere in the membership logic, is not modelled). -/
structure Room where
  code : String
  players : List (String × Player)
  hostId : String
  maxPlayers : Nat
deriving DecidableEq

/-- The `RoomManager` state: `rooms` and `playerToRoom`. -/
structure RMState where
  rooms : List (String × Room)
  playerToRoom : List (String × String)
deriving DecidableEq

/-- Return value of `RoomManager.joinRoom`. -/
structure JoinResult where
  success : Bool
  room : Option Room
  error : Option String
deriving DecidableEq

/-- `RoomManager.joinRoom`.  A total function: every violation is returned
as a failure value, never thrown. -/
def joinRoom (rm : RMState) (roomCode socketId playerName : String) :
    JoinResult × RMState :=
  match mapGet rm.rooms (jsToUpper roomCode) with
  | none =>
    ({ success := false, room := none, error := some "Room not found" }, rm)
  | some room =>
    if room.players.length ≥ room.maxPlayers then
      ({ success := false, room := none, error := some "Room is full" }, rm)
    else if (mapGet room.players socketId).isSome then
      ({ success := false, room := none, error := some "Already in this room" }, rm)
    else
      let existingNames := room.players.map (fun p => jsToLower p.2.name)
      if existingNames.contains (jsToLower playerName) then
        ({ success := false, room := none,
           error := some "Name already taken in this room" }, rm)
      else
        let newPlayer : Player := { id := socketId, name := playerName, isReady := false }
        let room' := { room with players := mapSet room.players socketId newPlayer }
        ({ success := true, room := some room', error := none },
         { rooms := mapSet rm.rooms (jsToUpper roomCode) room',
           playerToRoom := mapSet rm.playerToRoom socketId (jsToUpper roomCode) })

/-- A concrete `GamePlayer` for test fixtures. -/
def fixPlayer (id name : String) (isHuman : Bool) (role : Role) (target : String) :
    GamePlayer :=
  { id := id, name := name, isHuman := isHuman, isAI := !isHuman, role := role,
    word := if role = Role.civilian then CIVILIAN_WORD else UNDERCOVER_WORD,
    description := "", voteTarget := target,
    hasSubmittedDescription := false, hasVoted := target != "" }

/-- A concrete `GameState` for test fixtures. -/
def fixGame (phase : GamePhase) (players : List (String × GamePlayer))
    (civWon : Option Bool) (guesses : List (String × String)) : GameState :=
  { roomCode := "R", phase := phase, players := players,
    aiPlayerId := AI_PLAYER_ID, civilianWord := CIVILIAN_WORD,
    undercoverWord := UNDERCOVER_WORD, eliminatedPlayerId := none,
    civiliansWon := civWon, aiGuesses := guesses, aiGuessWinners := [] }

/-- Voting state with a 2–2 tie: votes p1→p2, p2→p1, p3→p1, AI→p2. -/
def c1game : GameState :=
  fixGame GamePhase.voting
    [("p1", fixPlayer "p1" "Alice" true Role.undercover "p2"),
     ("p2", fixPlayer "p2" "Bob" true Role.civilian "p1"),
     ("p3", fixPlayer "p3" "Carol" true Role.civilian "p1"),
     ("AI_PLAYER", fixPlayer "AI_PLAYER" "Sam" false Role.civilian "p2")]
    none []

/-- C1: claimed — whenever two or more players tie at the maximum vote
count, `calculateVotingResults` eliminates no one.  FALSE of the code: on
the 2–2 tie of `c1game` (`p1` and `p2` both at the maximum 2), the scan
`if (votes > maxVotes)` keeps the first key of the vote-count map to reach
the maximum, so `p2` is returned as `eliminatedPlayer` rather than `null`.
(The repository's own prompt-2.2 test asserts `eliminatedPlayer === null`
for exactly this tie.) -/
theorem spec_C1 :
    voteCountOf c1game "p1" = 2 ∧ voteCountOf c1game "p2" = 2 ∧
    findMaxVote (countVotes c1game.players) = (2, some "p2") ∧
    ((calculateVotingResults [("R", c1game)] "R").1).map (fun r => r.eliminatedPlayer) =
      some (some { id := "p2", name := "Bob", role := Role.civilian }) := by
  refine ⟨rfl, rfl, rfl, rfl⟩

/-- Voting state with no votes cast yet. -/
def c2game : GameState :=
  fixGame GamePhase.voting
    [("p1", fixPlayer "p1" "Alice" true Role.civilian ""),
     ("p2", fixPlayer "p2" "Bob" true Role.civilian ""),
     ("p3", fixPlayer "p3" "Carol" true Role.undercover ""),
     ("AI_PLAYER", fixPlayer "AI_PLAYER" "Sam" false Role.civilian "")]
    none []

/-- C2: claimed — `submitVote` returns `false` and records nothing when the
voter is not alive, the target is not alive, or the target equals the
voter.  FALSE of the code: it checks only that the game exists, that the
phase is voting, and that the voter is a member; a self-vote (`p1` voting
for `p1`) is accepted and recorded.  (The repository's own prompt-3.1
tests assert rejection for eliminated voters and eliminated targets.) -/
theorem spec_C2 :
    (submitVote [("R", c2game)] "R" "p1" "p1").1 = true ∧
    (getGame (submitVote [("R", c2game)] "R" "p1" "p1").2 "R").map
        (fun g => (mapGet g.players "p1").map (fun p => (p.voteTarget, p.hasVoted))) =
      some (some ("p1", true)) := by
  refine ⟨rfl, rfl⟩

/-- Description-phase state with nothing submitted yet. -/
def c3game : GameState :=
  fixGame GamePhase.description
    [("p1", fixPlayer "p1" "Alice" true Role.civilian ""),
     ("p2", fixPlayer "p2" "Bob" true Role.civilian ""),
     ("p3", fixPlayer "p3" "Carol" true Role.undercover ""),
     ("AI_PLAYER", fixPlayer "AI_PLAYER" "Sam" false Role.civilian "")]
    none []

/-- C3: claimed — during the description phase a submission is accepted
only from the alive seat whose turn it currently is.  FALSE of the code:
`submitDescription` checks only game existence, phase and membership; it
keeps no turn or aliveness state at all, so two distinct seats (`p1` and
then `p2`, with no turn change in between — there is no turn to change)
are both accepted, and at most one of them can be the seat whose turn it
is.  (The repository's own prompt-1.2/3.1 tests drive a turn order via
`getCurrentTurnPlayerId`/`advanceDescriptionTurn` and assert rejection of
eliminated players.) -/
theorem spec_C3 :
    (submitDescription [("R", c3game)] "R" "p1" "apple").1 = true ∧
    (submitDescription (submitDescription [("R", c3game)] "R" "p1" "apple").2
        "R" "p2" "banana").1 = true ∧
    (getGame (submitDescription (submitDescription [("R", c3game)] "R" "p1" "apple").2
          "R" "p2" "banana").2 "R").map
        (fun g => ((mapGet g.players "p1").map (fun p => p.hasSubmittedDescription),
                   (mapGet g.players "p2").map (fun p => p.hasSubmittedDescription))) =
      some (some true, some true) := by
  refine ⟨rfl, rfl, rfl⟩

/-- Description-phase fixture for the phase-order claim. -/
def c5game : GameState :=
  fixGame GamePhase.description
    [("p1", fixPlayer "p1" "Alice" true Role.civilian ""),
     ("p2", fixPlayer "p2" "Bob" true Role.undercover ""),
     ("p3", fixPlayer "p3" "Carol" true Role.civilian ""),
     ("AI_PLAYER", fixPlayer "AI_PLAYER" "Sam" false Role.civilian "")]
    none []

def c5g0 : GMState := [("R", c5game)]
def c5g1 : GMState := (advancePhase c5g0 "R").2
def c5g2 : GMState := (advancePhase c5g1 "R").2
def c5g3 : GMState := (advancePhase c5g2 "R").2

/-- C5: claimed — `advancePhase` follows Lobby → Description → Discussion →
Voting → Results → GuessPhase → FinalReveal; in particular a game in the
description phase moves to a discussion phase.  FALSE of the code: its
`GamePhase` enum has no discussion member at all, and `advancePhase` maps
the description phase directly to voting, then results, then the AI-guess
phase, then final results.  (The repository's own `index.ts` imports
`GamePhase.DISCUSSION` and its prompt-1.2 test needs two advances to get
from description to voting.) -/
theorem spec_C5 :
    (advancePhase c5g0 "R").1 = some GamePhase.voting ∧
    (advancePhase c5g1 "R").1 = some GamePhase.results ∧
    (advancePhase c5g2 "R").1 = some GamePhase.aiGuess ∧
    (advancePhase c5g3 "R").1 = some GamePhase.finalResults := by
  refine ⟨rfl, rfl, rfl, rfl⟩

/-- AI-guess-phase fixture. -/
def c10game : GameState :=
  fixGame GamePhase.aiGuess
    [("p1", fixPlayer "p1" "Alice" true Role.civilian ""),
     ("p2", fixPlayer "p2" "Bob" true Role.civilian ""),
     ("p3", fixPlayer "p3" "Carol" true Role.undercover ""),
     ("AI_PLAYER", fixPlayer "AI_PLAYER" "Sam" false Role.civilian "")]
    (some false) []

/-- Evaluation of `submitAIGuess` on a found game in the AI-guess phase. -/
theorem submitAIGuess_eq (gm : GMState) (rc pid g : String) (game : GameState)
    (hg : mapGet gm rc = some game) (hp : game.phase = GamePhase.aiGuess) :
    submitAIGuess gm rc pid g =
      (true, mapSet gm rc { game with aiGuesses := mapSet game.aiGuesses pid g }) := by
  simp only [submitAIGuess, hg, hp]
  simp

/-- C10: while the game exists and is in the AI-guess phase,
`submitAIGuess` accepts any caller id and any guessed id — no membership,
humanity or aliveness check — and a later guess by the same caller
overwrites the earlier one. -/
theorem spec_C10 (gm : GMState) (roomCode callerId guess1 guess2 : String)
    (game : GameState) (hg : mapGet gm roomCode = some game)
    (hp : game.phase = GamePhase.aiGuess) :
    ∃ gm1 game1 gm2 game2,
      submitAIGuess gm roomCode callerId guess1 = (true, gm1) ∧
      mapGet gm1 roomCode = some game1 ∧
      mapGet game1.aiGuesses callerId = some guess1 ∧
      submitAIGuess gm1 roomCode callerId guess2 = (true, gm2) ∧
      mapGet gm2 roomCode = some game2 ∧
      mapGet game2.aiGuesses callerId = some guess2 := by
  have h1 := submitAIGuess_eq gm roomCode callerId guess1 game hg hp
  have hget1 := mapGet_mapSet_self gm roomCode
    { game with aiGuesses := mapSet game.aiGuesses callerId guess1 }
  have h2 := submitAIGuess_eq _ roomCode callerId guess2 _ hget1 hp
  exact ⟨_, _, _, _, h1, hget1, mapGet_mapSet_self _ _ _, h2,
    mapGet_mapSet_self _ _ _, mapGet_mapSet_self _ _ _⟩

/-- C10 witness: a caller id (`ghost`) that is not a member of the game at
all is accepted and its second guess overwrites its first. -/
theorem spec_C10_witness :
    ∃ gm1 game1 gm2 game2,
      submitAIGuess [("R", c10game)] "R" "ghost" "p1" = (true, gm1) ∧
      mapGet gm1 "R" = some game1 ∧
      mapGet game1.aiGuesses "ghost" = some "p1" ∧
      submitAIGuess gm1 "R" "ghost" "p2" = (true, gm2) ∧
      mapGet gm2 "R" = some game2 ∧
      mapGet game2.aiGuesses "ghost" = some "p2" :=
  spec_C10 [("R", c10game)] "R" "ghost" "p1" "p2" c10game rfl rfl

/-- C9: `joinRoom` is total (failures are returned, never thrown) and, for
each of the three join-time violations — unknown room code, room already at
its 3-player quota, display name duplicating (case-insensitively) an
existing member — it returns a failure value with the corresponding
explicit reason and leaves the rooms map and the player-to-room map
completely unchanged. -/
theorem spec_C9 (rm : RMState) (roomCode socketId playerName : String) :
    (mapGet rm.rooms (jsToUpper roomCode) = none →
      joinRoom rm roomCode socketId playerName =
        ({ success := false, room := none, error := some "Room not found" }, rm)) ∧
    (∀ room, mapGet rm.rooms (jsToUpper roomCode) = some room →
      room.players.length ≥ room.maxPlayers →
      joinRoom rm roomCode socketId playerName =
        ({ success := false, room := none, error := some "Room is full" }, rm)) ∧
    (∀ room, mapGet rm.rooms (jsToUpper roomCode) = some room →
      room.players.length < room.maxPlayers →
      mapGet room.players socketId = none →
      (room.players.map (fun p => jsToLower p.2.name)).contains (jsToLower playerName) = true →
      joinRoom rm roomCode socketId playerName =
        ({ success := false, room := none,
           error := some "Name already taken in this room" }, rm)) := by
  refine ⟨?_, ?_, ?_⟩
  · intro h
    simp only [joinRoom, h]
  · intro room hr hfull
    simp only [joinRoom, hr]
    rw [if_pos hfull]
  · intro room hr hlt hsock hdup
    simp only [joinRoom, hr]
    rw [if_neg (not_le.mpr hlt), if_neg (by simp [hsock]), if_pos hdup]

def w9roomFull : Room :=
  { code := "ABCDEF",
    players := [("s1", { id := "s1", name := "Alice", isReady := false }),
                ("s2", { id := "s2", name := "Bob", isReady := false }),
                ("s3", { id := "s3", name := "Carol", isReady := false })],
    hostId := "s1", maxPlayers := 3 }

def w9roomOpen : Room :=
  { code := "ABCDEF",
    players := [("s1", { id := "s1", name := "Alice", isReady := false })],
    hostId := "s1", maxPlayers := 3 }

def w9none : RMState := { rooms := [], playerToRoom := [] }
def w9full : RMState := { rooms := [("ABCDEF", w9roomFull)], playerToRoom := [] }
def w9dup : RMState := { rooms := [("ABCDEF", w9roomOpen)], playerToRoom := [] }

/-- C9 witness: the three failure branches exercised on concrete states
(note the duplicate-name case matches case-insensitively: "ALICE" vs
"Alice", and the lower-cased lookup code "abcdef" still finds the room). -/
theorem spec_C9_witness :
    (joinRoom w9none "abcdef" "s9" "Zed" =
      ({ success := false, room := none, error := some "Room not found" }, w9none)) ∧
    (joinRoom w9full "abcdef" "s9" "Zed" =
      ({ success := false, room := none, error := some "Room is full" }, w9full)) ∧
    (joinRoom w9dup "abcdef" "s9" "ALICE" =
      ({ success := false, room := none,
         error := some "Name already taken in this room" }, w9dup)) :=
  ⟨(spec_C9 w9none "abcdef" "s9" "Zed").1 rfl,
   (spec_C9 w9full "abcdef" "s9" "Zed").2.1 w9roomFull (by decide) (by decide),
   (spec_C9 w9dup "abcdef" "s9" "ALICE").2.2 w9roomOpen (by decide) (by decide) (by decide)
     (by decide)⟩

/-- AI-guess-phase state after the undercover AI was voted out (civilians
won): the three humans are all civilians, so none of them is a "losing
human", and only `p1` has guessed so far. -/
def c4game : GameState :=
  fixGame GamePhase.aiGuess
    [("p1", fixPlayer "p1" "Alice" true Role.civilian ""),
     ("p2", fixPlayer "p2" "Bob" true Role.civilian ""),
     ("p3", fixPlayer "p3" "Carol" true Role.civilian ""),
     ("AI_PLAYER", fixPlayer "AI_PLAYER" "Sam" false Role.undercover "")]
    (some true) [("p1", "AI_PLAYER")]

/-- C4 counterexample: the claim says the final-reveal transition guard
`allAIGuessesSubmitted` can hold only once every human has an entry in the
guess map.  In `c4game` the guard already holds (civilians won and no human
is undercover, so the losing-humans list is empty) while the human seats
`p2` and `p3` have no guess entry — so the `submit-ai-guess` handler moves
the game to final results after `p1`'s single guess. -/
theorem spec_C4_cex :
    allAIGuessesSubmitted [("R", c4game)] "R" = true ∧
    (mapGet c4game.players "p2").map (fun p => p.isHuman) = some true ∧
    mapGet c4game.aiGuesses "p2" = none ∧
    (mapGet c4game.players "p3").map (fun p => p.isHuman) = some true ∧
    mapGet c4game.aiGuesses "p3" = none := by
  refine ⟨rfl, rfl, rfl, rfl, rfl⟩

/-- C4 (amended): `allAIGuessesSubmitted` — the guard of the transition to
final results in the `submit-ai-guess` handler — holds exactly when every
LOSING human seat (humans whose role is undercover if civilians won, and
civilian otherwise) has an entry in the guess map; winning humans are not
required to have guessed. -/
theorem spec_C4 (gm : GMState) (roomCode : String) (game : GameState)
    (hg : mapGet gm roomCode = some game) :
    allAIGuessesSubmitted gm roomCode = true ↔
      ∀ pr ∈ game.players, pr.2.isHuman = true →
        pr.2.role = (if truthy game.civiliansWon then Role.undercover else Role.civilian) →
        (mapGet game.aiGuesses pr.1).isSome = true := by
  simp only [allAIGuessesSubmitted, hg]
  rw [List.all_eq_true]
  constructor
  · intro h pr hmem hhum hrole
    refine h pr (List.mem_filter.mpr ⟨hmem, ?_⟩)
    by_cases hc : truthy game.civiliansWon = true
    · simp only [hc, if_true] at hrole ⊢
      simp [hhum, hrole]
    · simp only [Bool.not_eq_true] at hc
      simp only [hc, if_false] at hrole ⊢
      simp [hhum, hrole]
  · intro h pr hmem
    obtain ⟨hmem', hp⟩ := List.mem_filter.mp hmem
    rw [Bool.and_eq_true] at hp
    refine h pr hmem' hp.1 ?_
    by_cases hc : truthy game.civiliansWon = true
    · simp only [hc, if_true] at hp ⊢
      simpa using hp.2
    · simp only [Bool.not_eq_true] at hc
      simp only [hc, if_false] at hp ⊢
      simpa using hp.2

/-- C4 witness: the amended guard evaluated on the concrete state `c4game`
(an empty losing-humans obligation, so the guard holds). -/
theorem spec_C4_witness :
    allAIGuessesSubmitted [("R", c4game)] "R" = true ↔
      ∀ pr ∈ c4game.players, pr.2.isHuman = true →
        pr.2.role = (if truthy c4game.civiliansWon then Role.undercover else Role.civilian) →
        (mapGet c4game.aiGuesses pr.1).isSome = true :=
  spec_C4 [("R", c4game)] "R" c4game rfl

/-- Final-results-phase state (every role long since revealed via the
results payloads; the AI seat is `AI_PLAYER`). -/
def c8game : GameState :=
  fixGame GamePhase.finalResults
    [("p1", fixPlayer "p1" "Alice" true Role.civilian ""),
     ("p2", fixPlayer "p2" "Bob" true Role.civilian ""),
     ("p3", fixPlayer "p3" "Carol" true Role.undercover ""),
     ("AI_PLAYER", fixPlayer "AI_PLAYER" "Sam" false Role.civilian "")]
    (some false) [("p1", "AI_PLAYER"), ("p2", "p3"), ("p3", "p1")]

/-- C8 counterexample: the claim says that once the final-reveal phase is
reached, `getPlayerView` identifies the non-human seat for every
requester.  FALSE of the code: in the final-results phase, with the
reveal flag set, every entry of the returned view still carries
`isAI = false` ("Hide who is AI from everyone"), including the actual AI
seat `AI_PLAYER`: the player view never identifies the non-human seat.
(Other payloads do reveal it — `calculateVotingResults` returns the AI
seat's id, name and role, and `calculateFinalResults` does too — but
never the view.) -/
theorem spec_C8_cex :
    c8game.phase = GamePhase.finalResults ∧
    (mapGet c8game.players c8game.aiPlayerId).map (fun p => p.isAI) = some true ∧
    (getPlayerView [("R", c8game)] "R" "p1" true).map
        (fun v => v.players.map (fun e => (e.id, e.isAI))) =
      some [("p1", false), ("p2", false), ("p3", false), ("AI_PLAYER", false)] := by
  refine ⟨rfl, rfl, rfl⟩

/-- C8 (amended): `getPlayerView` never marks any seat (including the
requester) as the non-human participant, in any phase and for any value of
the reveal flag — before the final reveal as the claim states, and in the
final-reveal phase as well; every entry of every returned view has
`isAI = false`. -/
theorem spec_C8 (gm : GMState) (roomCode playerId : String) (showResults : Bool)
    (view : PlayerGameView)
    (h : getPlayerView gm roomCode playerId showResults = some view) :
    ∀ e ∈ view.players, e.isAI = false := by
  unfold getPlayerView at h
  cases hg : mapGet gm roomCode with
  | none => rw [hg] at h; exact absurd h (by simp)
  | some game =>
    rw [hg] at h
    dsimp only at h
    cases hp : mapGet game.players playerId with
    | none => rw [hp] at h; exact absurd h (by simp)
    | some myPlayer =>
      rw [hp] at h
      dsimp only at h
      simp only [Option.some.injEq] at h
      subst h
      intro e he
      simp only [List.mem_map] at he
      obtain ⟨p, hmem, hpe⟩ := he
      rw [← hpe]

/-- C8 witness: the amended property applied to the concrete final-phase
view of `c8game`: no entry of the view is flagged as the AI. -/
theorem spec_C8_witness :
    ((getPlayerView [("R", c8game)] "R" "p2" true).elim [] (fun v => v.players)).all
      (fun e => e.isAI == false) = true := by
  rw [List.all_eq_true]
  have h : getPlayerView [("R", c8game)] "R" "p2" true =
      some ((getPlayerView [("R", c8game)] "R" "p2" true).getD
        { roomCode := "", phase := GamePhase.lobby, myPlayerId := "", myRole := none,
          myWord := "", players := [] }) := rfl
  intro e he
  have hfalse := spec_C8 [("R", c8game)] "R" "p2" true _ h e he
  simp [hfalse]

theorem countVotes_aux_nodup (ps : List (String × GamePlayer)) :
    ∀ acc : List (String × Nat), (mapKeys acc).Nodup →
      (mapKeys (ps.foldl countStep acc)).Nodup := by
  induction ps with
  | nil => intro acc h; simpa using h
  | cons hd tl ih =>
    intro acc h
    rw [List.foldl_cons]
    refine ih (countStep acc hd) ?_
    unfold countStep
    by_cases ht : hd.2.voteTarget = ""
    · simpa [ht] using h
    · simpa [ht] using mapKeys_mapSet_nodup acc hd.2.voteTarget _ h

/-- The keys of the vote-count map have no duplicates. -/
theorem countVotes_nodup (ps : List (String × GamePlayer)) :
    (mapKeys (countVotes ps)).Nodup :=
  countVotes_aux_nodup ps [] (by simp [mapKeys])

theorem countVotes_aux_keys (P : String → Prop) :
    ∀ (qs : List (String × GamePlayer)),
      (∀ pr ∈ qs, pr.2.voteTarget ≠ "" → P pr.2.voteTarget) →
      ∀ acc : List (String × Nat), (∀ k ∈ mapKeys acc, P k) →
      ∀ k ∈ mapKeys (qs.foldl countStep acc), P k := by
  intro qs
  induction qs with
  | nil => intro _ acc hacc k hk; exact hacc k (by simpa using hk)
  | cons hd tl ih =>
    intro hq acc hacc k hk
    rw [List.foldl_cons] at hk
    refine ih (fun pr hpr => hq pr (List.mem_cons_of_mem _ hpr)) (countStep acc hd) ?_ k hk
    intro k2 hk2
    unfold countStep at hk2
    by_cases ht : hd.2.voteTarget = ""
    · rw [if_pos ht] at hk2
      exact hacc k2 hk2
    · rw [if_neg ht] at hk2
      rcases mem_mapKeys_mapSet acc hd.2.voteTarget k2 _ hk2 with hold | hnew
      · exact hacc k2 hold
      · rw [hnew]
        exact hq hd (List.mem_cons_self hd tl) ht

/-- Every key of the vote-count map is some player's nonempty vote target. -/
theorem countVotes_key_target (ps : List (String × GamePlayer)) :
    ∀ k ∈ mapKeys (countVotes ps), ∃ pr ∈ ps, pr.2.voteTarget = k ∧ pr.2.voteTarget ≠ "" := by
  intro k hk
  exact countVotes_aux_keys
    (fun t => ∃ pr ∈ ps, pr.2.voteTarget = t ∧ pr.2.voteTarget ≠ "")
    ps (fun pr hpr hne => ⟨pr, hpr, rfl, hne⟩) [] (by simp [mapKeys]) k hk

/-- If every remaining count is bounded by the current maximum, the scan
keeps its accumulator. -/
theorem maxScan_stable (m : Nat) (u : String) :
    ∀ vc : List (String × Nat), (∀ kv ∈ vc, kv.2 ≤ m) →
      vc.foldl maxStep (m, some u) = (m, some u) := by
  intro vc
  induction vc with
  | nil => intro h; rfl
  | cons hd tl ih =>
    intro h
    rw [List.foldl_cons]
    have hle : hd.2 ≤ m := h hd (List.mem_cons_self hd tl)
    have hstep : maxStep (m, some u) hd = (m, some u) := by
      unfold maxStep
      rw [if_neg (by omega)]
    rw [hstep]
    exact ih (fun kv hkv => h kv (List.mem_cons_of_mem _ hkv))

/-- If `u` holds the strict maximum `m` of the (duplicate-free) vote-count
list and the accumulator is still below `m`, the scan ends at `(m, u)`. -/
theorem maxScan_unique (m : Nat) (u : String) :
    ∀ (vc : List (String × Nat)) (a : Nat) (o : Option String), a < m →
      (u, m) ∈ vc →
      (∀ kv ∈ vc, kv.1 = u → kv.2 = m) →
      (∀ kv ∈ vc, kv.1 ≠ u → kv.2 < m) →
      vc.foldl maxStep (a, o) = (m, some u) := by
  intro vc
  induction vc with
  | nil => intro a o ha hmem _ _; simp at hmem
  | cons hd tl ih =>
    intro a o ha hmem hequ hlt
    obtain ⟨k, n⟩ := hd
    rw [List.foldl_cons]
    by_cases hk : k = u
    · have hn : n = m := hequ (k, n) (List.mem_cons_self _ _) hk
      subst hk hn
      have hstep : maxStep (a, o) (k, n) = (n, some k) := by
        unfold maxStep
        rw [if_pos (by simpa using ha)]
      rw [hstep]
      refine maxScan_stable n k tl ?_
      intro kv hkv
      by_cases hku : kv.1 = k
      · exact le_of_eq (hequ kv (List.mem_cons_of_mem _ hkv) hku)
      · exact le_of_lt (hlt kv (List.mem_cons_of_mem _ hkv) hku)
    · have hn : n < m := hlt (k, n) (List.mem_cons_self _ _) hk
      have hmem2 : (u, m) ∈ tl := by
        rcases List.mem_cons.mp hmem with heq | htl
        · exfalso
          apply hk
          have := congrArg Prod.fst heq
          simpa using this.symm
        · exact htl
      have hequ2 : ∀ kv ∈ tl, kv.1 = u → kv.2 = m :=
        fun kv hkv => hequ kv (List.mem_cons_of_mem _ hkv)
      have hlt2 : ∀ kv ∈ tl, kv.1 ≠ u → kv.2 < m :=
        fun kv hkv => hlt kv (List.mem_cons_of_mem _ hkv)
      by_cases hstep : a < n
      · have : maxStep (a, o) (k, n) = (n, some k) := by
          unfold maxStep
          rw [if_pos (by simpa using hstep)]
        rw [this]
        exact ih n (some k) hn hmem2 hequ2 hlt2
      · have : maxStep (a, o) (k, n) = (a, o) := by
          unfold maxStep
          rw [if_neg (by simpa using hstep)]
        rw [this]
        exact ih a o ha hmem2 hequ2 hlt2

/-- C6: if exactly one player holds the strictly highest vote count, that
count is positive, and (as the data-model invariant requires) every
nonempty vote target names a member of the game, then
`calculateVotingResults` eliminates exactly that player and reports
`civiliansWon = true` precisely when the eliminated player's role is
undercover. -/
theorem spec_C6 (gm : GMState) (roomCode : String) (game : GameState) (u : String)
    (p : GamePlayer)
    (hg : mapGet gm roomCode = some game)
    (hu : mapGet game.players u = some p)
    (hv : ∀ pr ∈ game.players, pr.2.voteTarget ≠ "" →
      (mapGet game.players pr.2.voteTarget).isSome = true)
    (hpos : 0 < voteCountOf game u)
    (hmax : ∀ pr ∈ game.players, pr.1 ≠ u → voteCountOf game pr.1 < voteCountOf game u) :
    ∃ res, (calculateVotingResults gm roomCode).1 = some res ∧
      res.eliminatedPlayer = some { id := p.id, name := p.name, role := p.role } ∧
      (res.civiliansWon = true ↔ p.role = Role.undercover) := by
  have hnd := countVotes_nodup game.players
  have hm : mapGet (countVotes game.players) u = some (voteCountOf game u) := by
    unfold voteCountOf at hpos ⊢
    cases h : mapGet (countVotes game.players) u with
    | none => rw [h] at hpos; simp at hpos
    | some n => simp [h]
  have humem : (u, voteCountOf game u) ∈ countVotes game.players :=
    mem_of_mapGet_eq_some hm
  have hequ : ∀ kv ∈ countVotes game.players, kv.1 = u → kv.2 = voteCountOf game u := by
    intro kv hkv hk
    obtain ⟨k, n⟩ := kv
    simp only at hk
    subst hk
    have := mapGet_eq_some_of_mem_nodup hnd hkv
    rw [hm] at this
    simpa using this.symm
  have hlt : ∀ kv ∈ countVotes game.players, kv.1 ≠ u → kv.2 < voteCountOf game u := by
    intro kv hkv hne
    obtain ⟨k, n⟩ := kv
    simp only at hne
    have hkkey : k ∈ mapKeys (countVotes game.players) :=
      List.mem_map.mpr ⟨(k, n), hkv, rfl⟩
    obtain ⟨pr, hpr, htv, htne⟩ := countVotes_key_target game.players k hkkey
    have hsome := hv pr hpr htne
    rw [htv] at hsome
    obtain ⟨q, hq⟩ := Option.isSome_iff_exists.mp hsome
    have hqmem : (k, q) ∈ game.players := mem_of_mapGet_eq_some hq
    have hcount := hmax (k, q) hqmem hne
    have hk2 : voteCountOf game k = n := by
      unfold voteCountOf
      rw [mapGet_eq_some_of_mem_nodup hnd hkv]
      rfl
    simpa [hk2] using hcount
  have hscan : findMaxVote (countVotes game.players) =
      (voteCountOf game u, some u) :=
    maxScan_unique (voteCountOf game u) u (countVotes game.players) 0 none hpos
      humem hequ hlt
  unfold calculateVotingResults
  rw [hg]
  dsimp only
  rw [hscan]
  dsimp only [Option.bind]
  rw [hu]
  dsimp only
  refine ⟨_, rfl, rfl, ?_⟩
  simp

/-- Voting state where the undercover seat `p3` uniquely holds the maximum
(3 of 4 votes): p1→p3, p2→p3, p3→p1, AI→p3. -/
def c6game : GameState :=
  fixGame GamePhase.voting
    [("p1", fixPlayer "p1" "Alice" true Role.civilian "p3"),
     ("p2", fixPlayer "p2" "Bob" true Role.civilian "p3"),
     ("p3", fixPlayer "p3" "Carol" true Role.undercover "p1"),
     ("AI_PLAYER", fixPlayer "AI_PLAYER" "Sam" false Role.civilian "p3")]
    none []

/-- C6 witness: on `c6game` the unique maximum holder `p3` (undercover,
3 votes) is eliminated and civilians win. -/
theorem spec_C6_witness :
    ∃ res, (calculateVotingResults [("R", c6game)] "R").1 = some res ∧
      res.eliminatedPlayer =
        some { id := (fixPlayer "p3" "Carol" true Role.undercover "p1").id,
               name := (fixPlayer "p3" "Carol" true Role.undercover "p1").name,
               role := (fixPlayer "p3" "Carol" true Role.undercover "p1").role } ∧
      (res.civiliansWon = true ↔
        (fixPlayer "p3" "Carol" true Role.undercover "p1").role = Role.undercover) :=
  spec_C6 [("R", c6game)] "R" c6game "p3" (fixPlayer "p3" "Carol" true Role.undercover "p1")
    rfl rfl (by decide) (by decide) (by decide)

/-- The role-and-word assignment of a player roster. -/
def playersProfile (players : List (String × GamePlayer)) : List (String × Role × String) :=
  players.map (fun p => (p.1, p.2.role, p.2.word))

/-- The role-and-word assignment of every game in the manager. -/
def roleWordProfile (gm : GMState) : List (String × List (String × Role × String)) :=
  gm.map (fun g => (g.1, playersProfile g.2.players))

theorem map_proj_mapSet {α β : Type} (f : String × α → β) (m : List (String × α))
    (k : String) (v v' : α) (hget : mapGet m k = some v) (hf : f (k, v') = f (k, v)) :
    (mapSet m k v').map f = m.map f := by
  induction m with
  | nil => simp [mapGet] at hget
  | cons hd tl ih =>
    obtain ⟨k0, w⟩ := hd
    by_cases h0 : k0 = k
    · subst h0
      have hw : w = v := by simpa [mapGet] using hget
      subst hw
      simp [mapSet, hf]
    · simp only [mapGet, h0, if_false] at hget
      simp [mapSet, h0, ih hget]

theorem playersProfile_mapSet (players : List (String × GamePlayer)) (k : String)
    (p p' : GamePlayer) (hget : mapGet players k = some p)
    (hrole : p'.role = p.role) (hword : p'.word = p.word) :
    playersProfile (mapSet players k p') = playersProfile players := by
  unfold playersProfile
  exact map_proj_mapSet (fun pr => (pr.1, pr.2.role, pr.2.word)) players k p p' hget
    (by simp [hrole, hword])

theorem roleWordProfile_mapSet (gm : GMState) (rc : String) (game game' : GameState)
    (hget : mapGet gm rc = some game)
    (hp : playersProfile game'.players = playersProfile game.players) :
    roleWordProfile (mapSet gm rc game') = roleWordProfile gm := by
  unfold roleWordProfile
  exact map_proj_mapSet (fun g => (g.1, playersProfile g.2.players)) gm rc game game' hget
    (by simp [hp])

theorem profile_submitDescription (gm : GMState) (rc pid text : String) :
    roleWordProfile (submitDescription gm rc pid text).2 = roleWordProfile gm := by
  unfold submitDescription
  cases hg : mapGet gm rc with
  | none => rfl
  | some game =>
    dsimp only
    by_cases hph : game.phase ≠ GamePhase.description
    · rw [if_pos hph]
    · rw [if_neg hph]
      cases hp : mapGet game.players pid with
      | none => rfl
      | some player =>
        dsimp only
        exact roleWordProfile_mapSet gm rc game _ hg
          (playersProfile_mapSet game.players pid player _ hp rfl rfl)

theorem profile_submitVote (gm : GMState) (rc pid target : String) :
    roleWordProfile (submitVote gm rc pid target).2 = roleWordProfile gm := by
  unfold submitVote
  cases hg : mapGet gm rc with
  | none => rfl
  | some game =>
    dsimp only
    by_cases hph : game.phase ≠ GamePhase.voting
    · rw [if_pos hph]
    · rw [if_neg hph]
      cases hp : mapGet game.players pid with
      | none => rfl
      | some player =>
        dsimp only
        exact roleWordProfile_mapSet gm rc game _ hg
          (playersProfile_mapSet game.players pid player _ hp rfl rfl)

theorem profile_advancePhase (gm : GMState) (rc : String) :
    roleWordProfile (advancePhase gm rc).2 = roleWordProfile gm := by
  unfold advancePhase
  cases hg : mapGet gm rc with
  | none => rfl
  | some game =>
    dsimp only
    exact roleWordProfile_mapSet gm rc game _ hg rfl

theorem profile_setPhase (gm : GMState) (rc : String) (ph : GamePhase) :
    roleWordProfile (setPhase gm rc ph) = roleWordProfile gm := by
  unfold setPhase
  cases hg : mapGet gm rc with
  | none => rfl
  | some game => exact roleWordProfile_mapSet gm rc game _ hg rfl

theorem profile_submitAIGuess (gm : GMState) (rc pid gid : String) :
    roleWordProfile (submitAIGuess gm rc pid gid).2 = roleWordProfile gm := by
  unfold submitAIGuess
  cases hg : mapGet gm rc with
  | none => rfl
  | some game =>
    dsimp only
    by_cases hph : game.phase ≠ GamePhase.aiGuess
    · rw [if_pos hph]
    · rw [if_neg hph]
      exact roleWordProfile_mapSet gm rc game _ hg rfl

theorem profile_calculateVotingResults (gm : GMState) (rc : String) :
    roleWordProfile (calculateVotingResults gm rc).2 = roleWordProfile gm := by
  unfold calculateVotingResults
  cases hg : mapGet gm rc with
  | none => rfl
  | some game =>
    dsimp only
    exact roleWordProfile_mapSet gm rc game _ hg rfl

theorem profile_calculateFinalResults (gm : GMState) (rc : String) :
    roleWordProfile (calculateFinalResults gm rc).2 = roleWordProfile gm := by
  unfold calculateFinalResults
  cases hg : mapGet gm rc with
  | none => rfl
  | some game =>
    dsimp only
    exact roleWordProfile_mapSet gm rc game _ hg rfl

theorem list_eq_of_length_four {α : Type} (l : List α) (h : l.length = 4) :
    ∃ a b c d, l = [a, b, c, d] := by
  rcases l with _ | ⟨a, l⟩
  · simp only [List.length_nil] at h; omega
  · rcases l with _ | ⟨b, l⟩
    · simp only [List.length_cons, List.length_nil] at h; omega
    · rcases l with _ | ⟨c, l⟩
      · simp only [List.length_cons, List.length_nil] at h; omega
      · rcases l with _ | ⟨d, l⟩
        · simp only [List.length_cons, List.length_nil] at h; omega
        · rcases l with _ | ⟨e, l⟩
          · exact ⟨a, b, c, d, rfl⟩
          · simp only [List.length_cons] at h
            omega

/-- C7: a game started with 3 human players (distinct seat ids, none equal
to the reserved AI id) has exactly one undercover and three civilians
among its four seats, every seat's word is determined by its role, and no
game-manager operation on an existing game ever changes any seat's role or
word (their role-and-word profile is invariant under every mutating
operation). -/
theorem spec_C7 :
    (∀ (roleRnd : Nat → Nat) (nameRnd : Nat → Nat → Nat) (gm : GMState)
        (rc i1 n1 i2 n2 i3 n3 : String),
      i1 ≠ i2 → i1 ≠ i3 → i2 ≠ i3 →
      i1 ≠ AI_PLAYER_ID → i2 ≠ AI_PLAYER_ID → i3 ≠ AI_PLAYER_ID →
      ∀ game gm2,
        startGame roleRnd nameRnd gm rc [(i1, n1), (i2, n2), (i3, n3)] = (some game, gm2) →
        game.players.countP (fun pr => decide (pr.2.role = Role.undercover)) = 1 ∧
        game.players.countP (fun pr => decide (pr.2.role = Role.civilian)) = 3 ∧
        ∀ pr ∈ game.players,
          pr.2.word = (if pr.2.role = Role.civilian then CIVILIAN_WORD else UNDERCOVER_WORD)) ∧
    (∀ gm rc pid text,
      roleWordProfile (submitDescription gm rc pid text).2 = roleWordProfile gm) ∧
    (∀ gm rc pid target,
      roleWordProfile (submitVote gm rc pid target).2 = roleWordProfile gm) ∧
    (∀ gm rc, roleWordProfile (advancePhase gm rc).2 = roleWordProfile gm) ∧
    (∀ gm rc ph, roleWordProfile (setPhase gm rc ph) = roleWordProfile gm) ∧
    (∀ gm rc pid gid,
      roleWordProfile (submitAIGuess gm rc pid gid).2 = roleWordProfile gm) ∧
    (∀ gm rc, roleWordProfile (calculateVotingResults gm rc).2 = roleWordProfile gm) ∧
    (∀ gm rc, roleWordProfile (calculateFinalResults gm rc).2 = roleWordProfile gm) := by
  refine ⟨?_, profile_submitDescription, profile_submitVote, profile_advancePhase,
    profile_setPhase, profile_submitAIGuess, profile_calculateVotingResults,
    profile_calculateFinalResults⟩
  intro roleRnd nameRnd gm rc i1 n1 i2 n2 i3 n3 h12 h13 h23 h1A h2A h3A game gm2 hsg
  unfold startGame at hsg
  rw [if_neg (by simp)] at hsg
  obtain ⟨r0, r1, r2, r3, hrs⟩ := list_eq_of_length_four
    (shuffleArray roleRnd [Role.civilian, Role.civilian, Role.civilian, Role.undercover])
    (shuffleArray_length roleRnd _)
  have hperm : ([r0, r1, r2, r3] : List Role).Perm
      [Role.civilian, Role.civilian, Role.civilian, Role.undercover] :=
    hrs ▸ shuffleArray_perm roleRnd _
  rw [hrs] at hsg
  simp only [Prod.mk.injEq, Option.some.injEq] at hsg
  obtain ⟨hgame, hgm2⟩ := hsg
  have hplayers : game.players =
      [(i1, mkHumanPlayer i1 n1 r0), (i2, mkHumanPlayer i2 n2 r1),
       (i3, mkHumanPlayer i3 n3 r2),
       (AI_PLAYER_ID,
        { id := AI_PLAYER_ID,
          name := pickAiName nameRnd [jsToLower n1, jsToLower n2, jsToLower n3],
          isHuman := false, isAI := true, role := r3,
          word := if r3 = Role.civilian then CIVILIAN_WORD else UNDERCOVER_WORD,
          description := "", voteTarget := "", hasSubmittedDescription := false,
          hasVoted := false })] := by
    rw [← hgame]
    simp [addHumans, mapSet, h12, h13, h23, h1A, h2A, h3A]
  have hroles : game.players.map (fun pr => pr.2.role) = [r0, r1, r2, r3] := by
    rw [hplayers]
    simp [mkHumanPlayer]
  have hcountP : ∀ p : Role → Bool,
      game.players.countP (fun pr => p pr.2.role) =
        List.countP p [Role.civilian, Role.civilian, Role.civilian, Role.undercover] := by
    intro p
    have hmap := List.countP_map p (fun pr : String × GamePlayer => pr.2.role) game.players
    rw [hroles] at hmap
    calc List.countP (fun pr => p pr.2.role) game.players
        = List.countP (p ∘ fun pr : String × GamePlayer => pr.2.role) game.players := rfl
      _ = List.countP p [r0, r1, r2, r3] := hmap.symm
      _ = List.countP p [Role.civilian, Role.civilian, Role.civilian, Role.undercover] :=
          hperm.countP_eq p
  refine ⟨?_, ?_, ?_⟩
  · exact hcountP (fun r => decide (r = Role.undercover))
  · exact hcountP (fun r => decide (r = Role.civilian))
  · intro pr hpr
    rw [hplayers] at hpr
    simp only [List.mem_cons, List.not_mem_nil, or_false] at hpr
    rcases hpr with h | h | h | h <;> subst h <;> rfl

def c7start : Option GameState × GMState :=
  startGame (fun _ => 0) (fun _ _ => 0) [] "R"
    [("p1", "Alice"), ("p2", "Bob"), ("p3", "Carol")]

def c7game : GameState :=
  c7start.1.getD (fixGame GamePhase.lobby [] none [])

/-- C7 witness: the invariants instantiated on a concretely started game
(oracles returning 0) and a concrete preservation instance. -/
theorem spec_C7_witness :
    (("p1" : String) ≠ "p2" ∧ ("p1" : String) ≠ AI_PLAYER_ID) ∧
    (c7game.players.countP (fun pr => decide (pr.2.role = Role.undercover)) = 1 ∧
     c7game.players.countP (fun pr => decide (pr.2.role = Role.civilian)) = 3 ∧
     ∀ pr ∈ c7game.players,
       pr.2.word = (if pr.2.role = Role.civilian then CIVILIAN_WORD else UNDERCOVER_WORD)) ∧
    roleWordProfile (setPhase [("R", c7game)] "R" GamePhase.voting) =
      roleWordProfile [("R", c7game)] :=
  ⟨⟨by decide, by decide⟩,
   spec_C7.1 (fun _ => 0) (fun _ _ => 0) [] "R" "p1" "Alice" "p2" "Bob" "p3" "Carol"
     (by decide) (by decide) (by decide) (by decide) (by decide) (by decide)
     c7game c7start.2 rfl,
   spec_C7.2.2.2.2.1 [("R", c7game)] "R" GamePhase.voting⟩

end Undercover
